import Mathlib

set_option autoImplicit false

/-!
Verification of the WaitFor retry/poll module
(`pkg/cluster/module/wait_for.go`), the Manager lifecycle operations and
the cleanup-path calculator (`pkg/cluster/manager`), over a shallow
embedding of the Go source in Lean.
-/

/-! ## String helpers (substring search, models Go `bytes.Contains`) -/

/-! ## String sets (pkg/set `StringSet`)

Modelled from the spec: `set.StringSet` is declared outside `src/`; §4.6
"accumulated per host into a de-duplicated set (set union, not list
concatenation)".  A Go `map[string]struct{}` key set is represented as a
duplicate-free list in first-insertion order; only its membership (the
set it denotes) is meaningful. -/

/-- Does `p` occur at the head of `s`? (helper for substring search). -/
def segLeads : List Char → List Char → Bool
  | [], _ => true
  | _ :: _, [] => false
  | a :: p, b :: s => a == b && segLeads p s

/-- Does `p` occur contiguously anywhere inside `s`? -/
def hasChunk (p : List Char) : List Char → Bool
  | [] => segLeads p []
  | b :: s => segLeads p (b :: s) || hasChunk p s

/-- Models Go `bytes.Contains s pat` (stdout treated as a string). -/
def strContains (s pat : String) : Bool :=
  hasChunk pat.toList s.toList

/-! ## Durations (Go `time.Duration` as nanoseconds) -/

/-- `time.Second` in nanoseconds. -/
def secondNs : Nat := 1000000000

/-- Abstract rendering of a `time.Duration` under `%s` formatting.
The Go rendering (`"1m0s"`) is abstracted to an injective textual form;
what matters for the claims is that the message embeds the timeout value. -/
def durStr (ns : Nat) : String := toString ns ++ "ns"

/-! ## WaitFor data model (`wait_for.go`) -/

/-- `WaitForConfig` of `wait_for.go` (durations in nanoseconds). -/
structure WaitForConfig where
  port : Nat
  sleep : Nat
  state : String
  timeout : Nat
  os : String
deriving DecidableEq, Repr

/-- The `WaitFor` module value. -/
structure WaitFor where
  c : WaitForConfig
deriving DecidableEq, Repr

/-- `NewWaitFor` of `wait_for.go`: applies defaults to unset fields. -/
def NewWaitFor (c : WaitForConfig) : WaitFor :=
  let c1 := { c with sleep := if c.sleep = 0 then secondNs else c.sleep }
  let c2 := { c1 with timeout := if c1.timeout = 0 then 60 * secondNs else c1.timeout }
  let c3 := { c2 with state := if c2.state = "" then "started" else c2.state }
  ⟨c3⟩

/-- The `Linux` OS-name constant used by the `module` package
(declared outside `wait_for.go`; its value is the GOOS name `"linux"`,
per §6 of the spec: `OS ∈ {"linux","darwin"}`). -/
def Linux : String := "linux"

/-- The `MacOS` OS-name constant used by the `module` package
(declared outside `wait_for.go`; its value is the GOOS name `"darwin"`,
per §6 of the spec: `OS ∈ {"linux","darwin"}`). -/
def MacOS : String := "darwin"

/-- Result of one `e.Execute` call on the remote executor:
either captured stdout, or a transport/command error. -/
inductive ExecResult where
  | ok (stdout : String)
  | err (msg : String)
deriving DecidableEq, Repr

/-- An executor behaviour: the result of the k-th detection poll
(0-based).  Each retry invocation consumes the next result. -/
def Executor := Nat → ExecResult

/-- Classified result of one poll closure invocation:
`ok` = the closure returned nil; `notYet` = it returned the
"still waiting for port state to be satisfied" sentinel;
`hard m` = it returned the executor's transport error `m`. -/
inductive PollRes where
  | ok
  | notYet
  | hard (msg : String)
deriving DecidableEq, Repr

/-- `utils.RetryOption` (fields used by `WaitFor.Execute`). -/
structure RetryOption where
  delay : Nat
  timeout : Nat
deriving DecidableEq, Repr

/-- Outcome of a retry loop, recording the number of poll attempts made. -/
inductive RetryOutcome where
  | ok (attempts : Nat)
  | hardErr (msg : String) (attempts : Nat)
  | timedOut (attempts : Nat)
deriving DecidableEq, Repr

/-- Number of poll attempts (executor invocations) of an outcome. -/
def RetryOutcome.attempts : RetryOutcome → Nat
  | .ok n => n
  | .hardErr _ n => n
  | .timedOut n => n

/-- Did the retry loop end in success (the Go `Retry` returned nil)? -/
def RetryOutcome.isOk : RetryOutcome → Bool
  | .ok _ => true
  | _ => false

/-- Modelled from the spec: `utils.Retry` is not under `src/`.  §4.3:
"repeatedly invokes `operation` (which returns nil on success, or a
sentinel not-yet error, or a hard error) separated by `delay`, until
either it returns nil (success), a hard non-retryable error propagates
immediately, or elapsed time exceeds `timeout` (returns a timeout
error)".  Attempt `k` runs at elapsed time `k·delay`; after a not-yet
result the loop sleeps `delay` and re-polls unless the elapsed time
would exceed the timeout.  `fuel` bounds the recursion; `Retry` below
supplies fuel that is never exhausted when `delay > 0`. -/
def retryAux (op : Nat → PollRes) (opt : RetryOption) : Nat → Nat → RetryOutcome
  | 0, k => .timedOut k
  | fuel + 1, k =>
    match op k with
    | .ok => .ok (k + 1)
    | .hard m => .hardErr m (k + 1)
    | .notYet =>
      if (k + 1) * opt.delay > opt.timeout then .timedOut (k + 1)
      else retryAux op opt fuel (k + 1)

/-- Modelled from the spec: the `utils.Retry` entry point (see `retryAux`). -/
def Retry (op : Nat → PollRes) (opt : RetryOption) : RetryOutcome :=
  retryAux op opt (opt.timeout / max opt.delay 1 + 2) 0

/-- The Linux detection pattern `fmt.Sprintf(":%d ", port)`. -/
def portPattern (port : Nat) : String := ":" ++ toString port ++ " "

/-- One invocation of the poll closure of `waitForLinux`
(`wait_for.go` lines 91-110), transliterating the `switch` with its
`fallthrough`: on a transport error the closure returns that error; on
state `"started"` it returns nil when the pattern is present, otherwise
it falls through into the `"stopped"` body (returning nil when the
pattern is absent, else the still-waiting sentinel); on state
`"stopped"` it returns nil when the pattern is absent, else the
sentinel; on any other state the `switch` selects no case and the
closure returns the nil `err`. -/
def linuxPollStep (state pattern : String) (r : ExecResult) : PollRes :=
  match r with
  | .err m => .hard m
  | .ok stdout =>
    if state = "started" then
      if strContains stdout pattern then .ok
      else if !strContains stdout pattern then .ok
      else .notYet
    else if state = "stopped" then
      if !strContains stdout pattern then .ok
      else .notYet
    else .ok

/-- `waitForLinux` (`wait_for.go` lines 87-111). -/
def WaitFor.waitForLinux (w : WaitFor) (e : Executor) (retryOpt : RetryOption) :
    RetryOutcome :=
  Retry (fun k => linuxPollStep w.c.state (portPattern w.c.port) (e k)) retryOpt

/-- The macOS detection pattern: `"LISTEN"` (lsof output) for the
started check, `"-"` (launchctl service-list absence marker) for the
stopped check (`wait_for.go` lines 116-123). -/
def macPattern (state : String) : String :=
  if state = "stopped" then "-" else "LISTEN"

/-- One invocation of the poll closure of `waitForMacOS`
(`wait_for.go` lines 124-143), transliterating the `switch` with its
`fallthrough` (both the `"started"` and `"stopped"` bodies test pattern
presence). -/
def macPollStep (state pattern : String) (r : ExecResult) : PollRes :=
  match r with
  | .err m => .hard m
  | .ok stdout =>
    if state = "started" then
      if strContains stdout pattern then .ok
      else if strContains stdout pattern then .ok
      else .notYet
    else if state = "stopped" then
      if strContains stdout pattern then .ok
      else .notYet
    else .ok

/-- `waitForMacOS` (`wait_for.go` lines 114-144). -/
def WaitFor.waitForMacOS (w : WaitFor) (e : Executor) (retryOpt : RetryOption) :
    RetryOutcome :=
  Retry (fun k => macPollStep w.c.state (macPattern w.c.state) (e k)) retryOpt

/-- The message of `errors.Errorf("timed out waiting for port %d to be %s
after %s", w.c.Port, w.c.State, w.c.Timeout)` in `Execute`. -/
def timedOutMsg (port : Nat) (state : String) (timeout : Nat) : String :=
  "timed out waiting for port " ++ toString port ++ " to be " ++ state ++
    " after " ++ durStr timeout

/-- The tail of `Execute` (`wait_for.go` lines 79-83): a non-nil `err`
from the selected wait function is logged at debug level only and
replaced by the formatted timeout message; nil stays nil. -/
def execWrap (w : WaitFor) (o : RetryOutcome) : Except String Unit × Nat :=
  if o.isOk then (Except.ok (), o.attempts)
  else (Except.error (timedOutMsg w.c.port w.c.state w.c.timeout), o.attempts)

/-- `WaitFor.Execute` (`wait_for.go` lines 66-84), additionally returning
the number of detection polls performed (executor invocations): the OS
switch selects `waitForMacOS`, `waitForLinux`, or nothing (leaving `err`
nil and performing no poll); see `execWrap` for the error rewording. -/
def WaitFor.ExecuteT (w : WaitFor) (e : Executor) : Except String Unit × Nat :=
  let retryOpt : RetryOption := { delay := w.c.sleep, timeout := w.c.timeout }
  if w.c.os = MacOS then execWrap w (w.waitForMacOS e retryOpt)
  else if w.c.os = Linux then execWrap w (w.waitForLinux e retryOpt)
  else (Except.ok (), 0)

/-- `WaitFor.Execute`: the error result alone. -/
def WaitFor.Execute (w : WaitFor) (e : Executor) : Except String Unit :=
  (w.ExecuteT e).1

/-! ## Path helpers (model Go `path.Clean` / `path.Join` on slash paths) -/

/-- Does `s` start with `pre`? (models Go `strings.HasPrefix` /
`String.startsWith`, in a form the kernel evaluates). -/
def strStarts (s pre : String) : Bool :=
  segLeads pre.toList s.toList

/-- Helper for `splitStr`: split at `sep`, accumulating the current
segment in reverse. -/
def splitStrAux (sep : Char) : List Char → List Char → List String
  | [], acc => [String.mk acc.reverse]
  | c :: rest, acc =>
    if c = sep then String.mk acc.reverse :: splitStrAux sep rest []
    else splitStrAux sep rest (c :: acc)

/-- Models Go `strings.Split s sep` for a one-character separator (the
only separators used here are `","` and `"/"`).  `splitStr "" sep = [""]`,
as in Go. -/
def splitStr (s : String) (sep : Char) : List String :=
  splitStrAux sep s.toList []

/-- One step of Go `path.Clean`'s traversal, over a reversed stack of
output segments: empty and `"."` segments are dropped; `".."` pops the
previous segment, except at the root (dropped) or at the start of a
relative path (kept). -/
def cleanPush (rooted : Bool) (stack : List String) (seg : String) : List String :=
  if seg = "" ∨ seg = "." then stack
  else if seg = ".." then
    match stack with
    | [] => if rooted then [] else [".."]
    | top :: rest => if top = ".." then seg :: top :: rest else rest
  else seg :: stack

/-- Join a reversed stack of segments with `"/"`. -/
def joinSegs : List String → String
  | [] => ""
  | [s] => s
  | s :: rest => joinSegs rest ++ "/" ++ s

/-- Models Go `path.Clean` (equivalently `filepath.Clean` on
slash-separated paths): collapse duplicate slashes, resolve `.` and
`..` segments. -/
def pathClean (p : String) : String :=
  if p = "" then "."
  else
    let rooted := strStarts p "/"
    let stack := (splitStr p '/').foldl (cleanPush rooted) []
    let body := joinSegs stack
    if rooted then "/" ++ body
    else if body = "" then "." else body

/-- Models Go `path.Join a b` (= `filepath.Join` on slash paths): skip
leading empty elements, join the rest with `"/"`, then clean. -/
def pathJoin (a b : String) : String :=
  if a ≠ "" then pathClean (a ++ "/" ++ b)
  else if b ≠ "" then pathClean b
  else ""

/-- Modelled from the spec: `spec.TLSCertKeyDir` is declared outside
`src/`; §4.6 names "the TLS certificate/key directory under the
instance's deploy directory" — the `tls` subdirectory. -/
def TLSCertKeyDir : String := "tls"

/-- Modelled from the spec: `spec.Abs(user, path)` is declared outside
`src/`; it resolves a possibly relative deploy directory to an absolute
path under the deploying user's home directory, cleaned. -/
def specAbs (user p : String) : String :=
  if strStarts p "/" then pathClean p
  else pathClean ("/home/" ++ user ++ "/" ++ p)

/-- Modelled from the spec: the node-exporter component name constant
(`spec.ComponentNodeExporter`), declared outside `src/`. -/
def ComponentNodeExporter : String := "node_exporter"

/-- Modelled from the spec: the blackbox-exporter component name constant
(`spec.ComponentBlackboxExporter`), declared outside `src/`. -/
def ComponentBlackboxExporter : String := "blackbox_exporter"

/-- `StringSet.Insert`: add a member, keeping the set duplicate-free. -/
def SSinsert (s : List String) (x : String) : List String :=
  if x ∈ s then s else s ++ [x]

/-- `StringSet.Join`: insert every member of `other`. -/
def SSjoin (s other : List String) : List String :=
  other.foldl SSinsert s

/-! ## Topology data model (attributes consulted by the cleanup code) -/

/-- The attributes of a `spec.Instance` consulted by the cleanup
calculator and `getMonitorHosts`: `ComponentName`, `ID`, `GetHost`,
`DataDir`, `LogDir`, `DeployDir`, `IgnoreMonitorAgent`, `GetSSHPort`,
`OS`, `Arch`. -/
structure Instance where
  componentName : String
  id : String
  host : String
  dataDir : String
  logDir : String
  deployDir : String
  ignoreMonitorAgent : Bool
  sshPort : Nat
  os : String
  arch : String
deriving DecidableEq, Repr

/-- A component: its instances, in order. -/
structure Component where
  instances : List Instance
deriving DecidableEq, Repr

/-- `GlobalOptions` fields consulted: deploy user and cluster-wide TLS. -/
structure GlobalOptions where
  user : String
  tlsEnabled : Bool
deriving DecidableEq, Repr

/-- `MonitoredOptions` fields consulted by `monitorCleanupFiles`. -/
structure MonitoredOptions where
  deployDir : String
  dataDir : String
  logDir : String
deriving DecidableEq, Repr

/-- A topology: components in start order (stop order is its reverse,
§4.1), plus the `BaseTopo()` global and monitored options. -/
structure Topology where
  components : List Component
  globalOptions : GlobalOptions
  monitoredOptions : Option MonitoredOptions
deriving DecidableEq, Repr

/-- `ComponentsByStopOrder`: the reverse of start order. -/
def Topology.componentsByStopOrder (t : Topology) : List Component :=
  t.components.reverse

/-- All instances in `IterInstance` order (components in start order). -/
def Topology.allInstances (t : Topology) : List Instance :=
  (t.components.map Component.instances).flatten

/-- `hostInfo` recorded by `getMonitorHosts` (ssh port, os, arch). -/
structure hostInfo where
  ssh : Nat
  os : String
  arch : String
deriving DecidableEq, Repr

/-- The cleanup file map: host → accumulated path set.  A host absent
from the Go map corresponds to the empty set (`nil` entries are
initialised to fresh empty sets before joining). -/
def FileMap := String → List String

/-- The `cleanUpFiles` receiver struct (manager source lines 413-420). -/
structure cleanUpFiles where
  cleanupData : Bool
  cleanupLog : Bool
  cleanupTLS : Bool
  retainDataRoles : List String
  retainDataNodes : List String
  delFileMap : FileMap

/-! ## Cleanup calculation (manager source lines 390-552) -/

/-- The per-instance data globs: `<dataDir>/*` for each comma-separated
data directory, when cleanup-data is set and the data dir is non-empty
(manager source lines 471-475). -/
def dataPathsOf (c : cleanUpFiles) (ins : Instance) : List String :=
  if c.cleanupData ∧ ins.dataDir ≠ "" then
    (splitStr ins.dataDir ',').foldl
      (fun ps dataDir => SSinsert ps (pathJoin dataDir "*")) []
  else []

/-- The per-instance log globs: `<logDir>/*.log` for each comma-separated
log directory, when cleanup-log is set and the log dir is non-empty
(manager source lines 477-481). -/
def logPathsOf (c : cleanUpFiles) (ins : Instance) : List String :=
  if c.cleanupLog ∧ ins.logDir ≠ "" then
    (splitStr ins.logDir ',').foldl
      (fun ps logDir => SSinsert ps (pathJoin logDir "*.log")) []
  else []

/-- The per-instance TLS path set: the `tls` directory under the
instance's absolute deploy directory, when cleanup-TLS is set and
cluster-wide TLS is disabled (manager source lines 483-488). -/
def tlsPathOf (c : cleanUpFiles) (g : GlobalOptions) (ins : Instance) : List String :=
  if c.cleanupTLS ∧ ¬ g.tlsEnabled then
    SSinsert [] (pathJoin (specAbs g.user ins.deployDir) TLSCertKeyDir)
  else []

/-- Body of the inner instance loop of `instanceCleanupFiles` (manager
source lines 447-494): exporter instances whose host opted out of the
monitor agent are skipped; instances retained by role, node id, or host
are skipped; otherwise the instance's log, data, and TLS path sets are
joined (in that order) into the host's entry. -/
def instStep (c : cleanUpFiles) (topo : Topology) (m : FileMap) (ins : Instance) :
    FileMap := fun h =>
  if (ins.componentName = ComponentNodeExporter ∨
      ins.componentName = ComponentBlackboxExporter) ∧ ins.ignoreMonitorAgent then m h
  else if ins.componentName ∈ c.retainDataRoles ∨ ins.id ∈ c.retainDataNodes ∨
      ins.host ∈ c.retainDataNodes then m h
  else if h = ins.host then
    SSjoin (SSjoin (SSjoin (m ins.host) (logPathsOf c ins))
      (dataPathsOf c ins)) (tlsPathOf c topo.globalOptions ins)
  else m h

/-- `instanceCleanupFiles` (manager source lines 441-496): iterate
components in stop order and their instances, accumulating into
`delFileMap`. -/
def cleanUpFiles.instanceCleanupFiles (c : cleanUpFiles) (topo : Topology) :
    cleanUpFiles :=
  let m := topo.componentsByStopOrder.foldl
    (fun m com => com.instances.foldl (instStep c topo) m) c.delFileMap
  { c with delFileMap := m }

/-- `getMonitorHosts` (manager source lines 390-410): collect each
distinct host (first occurrence, with its ssh/os/arch info) and the set
of hosts whose instances opted out of the monitor agent. -/
def monHostStep (acc : List (String × hostInfo) × List String) (ins : Instance) :
    List (String × hostInfo) × List String :=
  let noAgent := if ins.ignoreMonitorAgent then SSinsert acc.2 ins.host else acc.2
  let unique :=
    if acc.1.any (fun p => p.1 == ins.host) then acc.1
    else acc.1 ++ [(ins.host, ⟨ins.sshPort, ins.os, ins.arch⟩)]
  (unique, noAgent)

def getMonitorHosts (topo : Topology) : List (String × hostInfo) × List String :=
  topo.allInstances.foldl monHostStep ([], [])

/-- The monitoring-agent path contributions of one monitored host
(manager source lines 518-545); they do not depend on the host name. -/
def monContrib (c : cleanUpFiles) (g : GlobalOptions) (mo : MonitoredOptions) :
    List String × List String × List String :=
  let deployDir := specAbs g.user mo.deployDir
  let dataPaths : List String :=
    if c.cleanupData ∧ mo.dataDir ≠ "" then
      let dataDir :=
        if ¬ strStarts mo.dataDir "/" then pathJoin deployDir mo.dataDir
        else mo.dataDir
      SSinsert [] (pathJoin dataDir "*")
    else []
  let logDir := specAbs g.user mo.logDir
  let logPaths : List String :=
    if c.cleanupLog ∧ logDir ≠ "" then SSinsert [] (pathJoin logDir "*.log") else []
  let tlsPath : List String :=
    if c.cleanupTLS ∧ ¬ g.tlsEnabled then
      SSinsert [] (pathJoin deployDir TLSCertKeyDir)
    else []
  (logPaths, dataPaths, tlsPath)

/-- Body of the host loop of `monitorCleanupFiles` (manager source lines
511-551): hosts without an agent or retained by node are skipped;
otherwise the monitoring deployment's log, data, and TLS path sets are
joined into the host's entry. -/
def monStep (c : cleanUpFiles) (g : GlobalOptions) (mo : MonitoredOptions)
    (noAgentHosts : List String) (m : FileMap) (host : String) : FileMap := fun h =>
  if host ∈ noAgentHosts ∨ host ∈ c.retainDataNodes then m h
  else if h = host then
    SSjoin (SSjoin (SSjoin (m host) (monContrib c g mo).1)
      (monContrib c g mo).2.1) (monContrib c g mo).2.2
  else m h

/-- `monitorCleanupFiles` (manager source lines 499-552). -/
def cleanUpFiles.monitorCleanupFiles (c : cleanUpFiles) (topo : Topology) :
    cleanUpFiles :=
  match topo.monitoredOptions with
  | none => c
  | some mo =>
    let pair := getMonitorHosts topo
    let m := (pair.1.map Prod.fst).foldl
      (monStep c topo.globalOptions mo pair.2) c.delFileMap
    { c with delFileMap := m }

/-- `getCleanupFiles` (manager source lines 423-438). -/
def mkCleanCfg (cleanupData cleanupLog cleanupTLS : Bool)
    (retainDataRoles retainDataNodes : List String) : cleanUpFiles :=
  { cleanupData := cleanupData, cleanupLog := cleanupLog,
    cleanupTLS := cleanupTLS, retainDataRoles := retainDataRoles,
    retainDataNodes := retainDataNodes, delFileMap := fun _ => [] }

def getCleanupFiles (topo : Topology) (cleanupData cleanupLog cleanupTLS : Bool)
    (retainDataRoles retainDataNodes : List String) : FileMap :=
  let c : cleanUpFiles :=
    mkCleanCfg cleanupData cleanupLog cleanupTLS retainDataRoles retainDataNodes
  ((c.instanceCleanupFiles topo).monitorCleanupFiles topo).delFileMap

/-! ## Membership characterization of the cleanup map (towards C3) -/

/-- The skip condition of the instance loop (manager source lines
448-464): exporter instance with the monitor agent ignored, or retained
by role, node id, or host. -/
def instSkipped (c : cleanUpFiles) (ins : Instance) : Prop :=
  ((ins.componentName = ComponentNodeExporter ∨
    ins.componentName = ComponentBlackboxExporter) ∧
      ins.ignoreMonitorAgent = true) ∨
  (ins.componentName ∈ c.retainDataRoles ∨ ins.id ∈ c.retainDataNodes ∨
    ins.host ∈ c.retainDataNodes)

/-- The joined per-instance contribution (log, data, and TLS paths). -/
def instPaths (c : cleanUpFiles) (g : GlobalOptions) (ins : Instance) : List String :=
  SSjoin (SSjoin (logPathsOf c ins) (dataPathsOf c ins)) (tlsPathOf c g ins)

/-- The joined monitoring-agent contribution of one monitored host. -/
def monPaths (c : cleanUpFiles) (g : GlobalOptions) (mo : MonitoredOptions) :
    List String :=
  SSjoin (SSjoin (monContrib c g mo).1 (monContrib c g mo).2.1) (monContrib c g mo).2.2

def insA : Instance :=
  ⟨"tidb", "h1:4000", "h1", "", "/log", "deploy", false, 22, "linux", "amd64"⟩

def insB : Instance :=
  ⟨"tikv", "h1:20160", "h1", "/data", "/log", "deploy2", false, 22, "linux", "amd64"⟩

/-! ## Manager lifecycle operations (manager source lines 182-387) -/

/-- Errors surfaced by the Manager operations, classified by source:
`lockErr` = `ScaleOutLockedErr` (scale-out/scale-in in progress),
`metaErr` = `m.meta` failed other than by validation, `tlsErr` =
`topo.TLSConfig` failed, `sshBuilderErr` = `m.sshTaskBuilder` failed,
`promptAborted` = confirmation declined, `taskErr` = the built
pipeline's `Execute` failed. -/
inductive MgrErr where
  | lockErr
  | metaErr
  | tlsErr
  | sshBuilderErr
  | promptAborted
  | taskErr
deriving DecidableEq, Repr

/-- Environment of one Manager call: which collaborator reports failure.
`locked` means the spec manager's scale-out lock is held. -/
structure MgrEnv where
  locked : Bool
  metaFails : Bool
  tlsFails : Bool
  sshBuilderFails : Bool
  promptDeclined : Bool
  taskFails : Bool
deriving DecidableEq, Repr

/-- Observable milestones of a Manager operation, recorded in order. -/
inductive MgrEvent where
  | checkedLock
  | builtPipeline
  | executedPipeline
deriving DecidableEq, Repr

/-- `StartCluster` (manager source lines 232-278): scale-out lock check
first, then meta read, TLS config, ssh task builder, then build and
execute the pipeline; the first failure returns. -/
def startCluster (env : MgrEnv) : Except MgrErr Unit × List MgrEvent :=
  if env.locked then (.error .lockErr, [.checkedLock])
  else if env.metaFails then (.error .metaErr, [.checkedLock])
  else if env.tlsFails then (.error .tlsErr, [.checkedLock])
  else if env.sshBuilderFails then (.error .sshBuilderErr, [.checkedLock])
  else if env.taskFails then
    (.error .taskErr, [.checkedLock, .builtPipeline, .executedPipeline])
  else (.ok (), [.checkedLock, .builtPipeline, .executedPipeline])

/-- `StopCluster` (manager source lines 281-333): lock check, meta, TLS,
confirmation prompt (unless skipped), builder, then build and execute. -/
def stopCluster (env : MgrEnv) (skipConfirm : Bool) :
    Except MgrErr Unit × List MgrEvent :=
  if env.locked then (.error .lockErr, [.checkedLock])
  else if env.metaFails then (.error .metaErr, [.checkedLock])
  else if env.tlsFails then (.error .tlsErr, [.checkedLock])
  else if ¬ skipConfirm ∧ env.promptDeclined then
    (.error .promptAborted, [.checkedLock])
  else if env.sshBuilderFails then (.error .sshBuilderErr, [.checkedLock])
  else if env.taskFails then
    (.error .taskErr, [.checkedLock, .builtPipeline, .executedPipeline])
  else (.ok (), [.checkedLock, .builtPipeline, .executedPipeline])

/-- `RestartCluster` (manager source lines 336-387): same shape as
`StopCluster` with the Restart primitive. -/
def restartCluster (env : MgrEnv) (skipConfirm : Bool) :
    Except MgrErr Unit × List MgrEvent :=
  if env.locked then (.error .lockErr, [.checkedLock])
  else if env.metaFails then (.error .metaErr, [.checkedLock])
  else if env.tlsFails then (.error .tlsErr, [.checkedLock])
  else if ¬ skipConfirm ∧ env.promptDeclined then
    (.error .promptAborted, [.checkedLock])
  else if env.sshBuilderFails then (.error .sshBuilderErr, [.checkedLock])
  else if env.taskFails then
    (.error .taskErr, [.checkedLock, .builtPipeline, .executedPipeline])
  else (.ok (), [.checkedLock, .builtPipeline, .executedPipeline])

/-- `EnableCluster` (manager source lines 182-229, used for both enable
and disable): meta read, ssh task builder, then build and execute the
pipeline.  No scale-out lock check appears in this function. -/
def enableCluster (env : MgrEnv) (isEnable : Bool) :
    Except MgrErr Unit × List MgrEvent :=
  if env.metaFails then (.error .metaErr, [])
  else if env.sshBuilderFails then (.error .sshBuilderErr, [])
  else if env.taskFails then (.error .taskErr, [.builtPipeline, .executedPipeline])
  else (.ok (), [.builtPipeline, .executedPipeline])

/-! ## Claim theorems: WaitFor configuration and dispatch -/

/-- C9: `NewWaitFor` applies defaults to unset fields: a zero `Sleep`
becomes 1 second, a zero `Timeout` becomes 60 seconds, an empty `State`
becomes `"started"`; non-zero provided values (and `Port`, `OS`) are
kept unchanged. -/
theorem newWaitFor_defaults (c : WaitForConfig) :
    (NewWaitFor c).c.sleep = (if c.sleep = 0 then secondNs else c.sleep) ∧
    (NewWaitFor c).c.timeout = (if c.timeout = 0 then 60 * secondNs else c.timeout) ∧
    (NewWaitFor c).c.state = (if c.state = "" then "started" else c.state) ∧
    (NewWaitFor c).c.port = c.port ∧
    (NewWaitFor c).c.os = c.os :=
  ⟨rfl, rfl, rfl, rfl, rfl⟩

/-- C1 (code-bug evidence): with `OS="linux"`, `State="started"`, a
detection poll whose output does NOT contain the pattern `":4000 "`
nevertheless returns nil — the `fallthrough` into the `"stopped"` body
re-tests the (absent) pattern negatively and succeeds — so `Execute`
returns nil after a single poll even though the port never became
listening, contradicting both the claim and the field comment of
`WaitForConfig.State` ("started will ensure the port is open"). -/
theorem linux_started_poll_succeeds_without_pattern :
    strContains "State Recv-Q Send-Q" (portPattern 4000) = false ∧
    linuxPollStep "started" (portPattern 4000) (.ok "State Recv-Q Send-Q") = .ok ∧
    (NewWaitFor ⟨4000, 0, "", 0, "linux"⟩).ExecuteT
        (fun _ => .ok "State Recv-Q Send-Q") = (Except.ok (), 1) :=
  ⟨by decide, by decide, rfl⟩

/-- C10: for a `WaitForConfig` whose `OS` is neither `"linux"` nor
`"darwin"`, `Execute` returns nil immediately, performs no detection
poll, and never consults the executor (the result is the same for every
executor behaviour). -/
theorem execute_unknown_os_no_polls (c : WaitForConfig) (e e' : Executor)
    (h1 : c.os ≠ Linux) (h2 : c.os ≠ MacOS) :
    (NewWaitFor c).ExecuteT e = (Except.ok (), 0) ∧
    (NewWaitFor c).ExecuteT e = (NewWaitFor c).ExecuteT e' := by
  have hos : (NewWaitFor c).c.os = c.os := rfl
  constructor <;> simp [WaitFor.ExecuteT, hos, h1, h2]

/-- Witness for `execute_unknown_os_no_polls` at a concrete config. -/
theorem execute_unknown_os_no_polls_witness :
    (NewWaitFor ⟨4000, 0, "started", 0, "windows"⟩).ExecuteT
        (fun _ => .err "unreachable") = (Except.ok (), 0) :=
  (execute_unknown_os_no_polls ⟨4000, 0, "started", 0, "windows"⟩
    (fun _ => .err "unreachable") (fun _ => .ok "")
    (by decide) (by decide)).1

/-- C6: with `State="stopped"`, a Linux detection poll succeeds exactly
when the output does NOT contain `":<port> "` (and reports not-yet
exactly when it does); a macOS detection poll (service-list variant,
pattern `"-"`) succeeds exactly when the output DOES contain the
absence marker (and reports not-yet exactly when it does not). -/
theorem stopped_state_poll_characterization (port : Nat) (out : String) :
    (linuxPollStep "stopped" (portPattern port) (.ok out) = .ok ↔
      strContains out (portPattern port) = false) ∧
    (linuxPollStep "stopped" (portPattern port) (.ok out) = .notYet ↔
      strContains out (portPattern port) = true) ∧
    (macPollStep "stopped" (macPattern "stopped") (.ok out) = .ok ↔
      strContains out "-" = true) ∧
    (macPollStep "stopped" (macPattern "stopped") (.ok out) = .notYet ↔
      strContains out "-" = false) := by
  unfold linuxPollStep macPollStep macPattern
  by_cases h : strContains out (portPattern port) <;>
    by_cases h2 : strContains out "-" <;>
      simp [h, h2]

/-! ## Substring lemmas for the timeout message -/

theorem segLeads_self_append (p r : List Char) : segLeads p (p ++ r) = true := by
  induction p with
  | nil => rfl
  | cons a p ih => simp [segLeads, ih]

theorem hasChunk_of_segLeads {p s : List Char} (h : segLeads p s = true) :
    hasChunk p s = true := by
  cases s with
  | nil =>
    cases p with
    | nil => rfl
    | cons a t => simp [segLeads] at h
  | cons b s' => simp [hasChunk, h]

theorem hasChunk_cons {p : List Char} (b : Char) {s : List Char}
    (h : hasChunk p s = true) : hasChunk p (b :: s) = true := by
  simp [hasChunk, h]

theorem hasChunk_append_left (x : List Char) {p s : List Char}
    (h : hasChunk p s = true) : hasChunk p (x ++ s) = true := by
  induction x with
  | nil => simpa
  | cons b x ih => simpa [List.cons_append] using hasChunk_cons b ih

theorem strContains_middle (pre pat post : String) :
    strContains (pre ++ pat ++ post) pat = true := by
  unfold strContains
  have h : (pre ++ pat ++ post).toList = pre.toList ++ (pat.toList ++ post.toList) := by
    simp [String.toList]
  rw [h]
  exact hasChunk_append_left _ (hasChunk_of_segLeads (segLeads_self_append _ _))

theorem strContains_tail (pre pat : String) :
    strContains (pre ++ pat) pat = true := by
  unfold strContains
  have h : (pre ++ pat).toList = pre.toList ++ (pat.toList ++ []) := by
    simp [String.toList]
  rw [h]
  exact hasChunk_append_left _ (hasChunk_of_segLeads (segLeads_self_append _ _))

/-! ## Inversion of Execute's error rewording -/

theorem execWrap_fst_error {w : WaitFor} {o : RetryOutcome} {msg : String}
    (h : (execWrap w o).1 = Except.error msg) :
    msg = timedOutMsg w.c.port w.c.state w.c.timeout := by
  unfold execWrap at h
  split at h
  · simp at h
  · simp at h
    exact h.symm

theorem execute_error_eq (w : WaitFor) (e : Executor) (msg : String)
    (h : w.Execute e = Except.error msg) :
    msg = timedOutMsg w.c.port w.c.state w.c.timeout := by
  unfold WaitFor.Execute WaitFor.ExecuteT at h
  split at h
  · exact execWrap_fst_error h
  · split at h
    · exact execWrap_fst_error h
    · simp at h

/-- C5: whenever `Execute` fails, the returned error is exactly the
formatted message naming the port, the desired state and the timeout
duration; it contains the renderings of all three; and it is the same
for every failing executor behaviour under the same config — in
particular the raw low-level detection error is never contained in it. -/
theorem wait_failure_message_names_port_state_timeout
    (c : WaitForConfig) (e : Executor) (msg : String)
    (h : (NewWaitFor c).Execute e = Except.error msg) :
    msg = timedOutMsg (NewWaitFor c).c.port (NewWaitFor c).c.state
      (NewWaitFor c).c.timeout ∧
    strContains msg (toString (NewWaitFor c).c.port) = true ∧
    strContains msg (NewWaitFor c).c.state = true ∧
    strContains msg (durStr (NewWaitFor c).c.timeout) = true ∧
    (∀ (e' : Executor) (msg' : String),
      (NewWaitFor c).Execute e' = Except.error msg' → msg' = msg) := by
  have hm := execute_error_eq _ _ _ h
  refine ⟨hm, ?_, ?_, ?_, ?_⟩
  · rw [hm]
    have hsplit : timedOutMsg (NewWaitFor c).c.port (NewWaitFor c).c.state
        (NewWaitFor c).c.timeout =
        "timed out waiting for port " ++ toString (NewWaitFor c).c.port ++
          (" to be " ++ ((NewWaitFor c).c.state ++
            (" after " ++ durStr (NewWaitFor c).c.timeout))) := by
      simp [timedOutMsg, String.append_assoc]
    rw [hsplit]
    exact strContains_middle _ _ _
  · rw [hm]
    have hsplit : timedOutMsg (NewWaitFor c).c.port (NewWaitFor c).c.state
        (NewWaitFor c).c.timeout =
        ("timed out waiting for port " ++ (toString (NewWaitFor c).c.port ++
          " to be ")) ++ (NewWaitFor c).c.state ++
            (" after " ++ durStr (NewWaitFor c).c.timeout) := by
      simp [timedOutMsg, String.append_assoc]
    rw [hsplit]
    exact strContains_middle _ _ _
  · rw [hm]
    have hsplit : timedOutMsg (NewWaitFor c).c.port (NewWaitFor c).c.state
        (NewWaitFor c).c.timeout =
        ("timed out waiting for port " ++ (toString (NewWaitFor c).c.port ++
          (" to be " ++ ((NewWaitFor c).c.state ++ " after ")))) ++
          durStr (NewWaitFor c).c.timeout := by
      simp [timedOutMsg, String.append_assoc]
    rw [hsplit]
    exact strContains_tail _ _
  · intro e' msg' h'
    rw [execute_error_eq _ _ _ h', hm]

/-- Witness for `wait_failure_message_names_port_state_timeout`: a
stopped-state wait whose port stays listening times out with the
formatted message. -/
theorem wait_failure_message_witness :
    (NewWaitFor ⟨4000, 30 * secondNs, "stopped", 60 * secondNs, "linux"⟩).Execute
        (fun _ => .ok "LISTEN :4000 x") =
      Except.error (timedOutMsg 4000 "stopped" (60 * secondNs)) ∧
    strContains (timedOutMsg 4000 "stopped" (60 * secondNs)) "stopped" = true := by
  have h : (NewWaitFor ⟨4000, 30 * secondNs, "stopped", 60 * secondNs, "linux"⟩).Execute
      (fun _ => .ok "LISTEN :4000 x") =
      Except.error (timedOutMsg 4000 "stopped" (60 * secondNs)) := by rfl
  exact ⟨h, (wait_failure_message_names_port_state_timeout _ _ _ h).2.2.1⟩

/-! ## Hard errors abort the retry loop immediately -/

theorem newWaitFor_sleep_pos (c : WaitForConfig) : 0 < (NewWaitFor c).c.sleep := by
  show 0 < (if c.sleep = 0 then secondNs else c.sleep)
  split
  · norm_num [secondNs]
  · omega

theorem retryAux_hard (op : Nat → PollRes) (opt : RetryOption) (m : String) :
    ∀ (n i fuel : Nat), n < fuel →
    (∀ j, i ≤ j → j < i + n → op j = .notYet ∧ (j + 1) * opt.delay ≤ opt.timeout) →
    op (i + n) = .hard m →
    retryAux op opt fuel i = .hardErr m (i + n + 1) := by
  intro n
  induction n with
  | zero =>
    intro i fuel hf _ hk
    cases fuel with
    | zero => exact absurd hf (by omega)
    | succ f =>
      rw [Nat.add_zero] at hk
      unfold retryAux
      rw [hk]
  | succ n ih =>
    intro i fuel hf hpre hk
    cases fuel with
    | zero => exact absurd hf (by omega)
    | succ f =>
      have h0 := hpre i (le_refl i) (by omega)
      unfold retryAux
      rw [h0.1]
      have hle := h0.2
      rw [if_neg (by omega : ¬ (i + 1) * opt.delay > opt.timeout)]
      have hrec := ih (i + 1) f (by omega)
        (fun j hj1 hj2 => hpre j (by omega) (by omega))
        (by rw [show i + 1 + n = i + (n + 1) by omega]; exact hk)
      have harith : i + (n + 1) + 1 = i + 1 + n + 1 := by omega
      rw [harith]
      exact hrec

theorem Retry_hard (op : Nat → PollRes) (opt : RetryOption) (k : Nat) (m : String)
    (hd : 0 < opt.delay)
    (hpre : ∀ j, j < k → op j = .notYet ∧ (j + 1) * opt.delay ≤ opt.timeout)
    (hk : op k = .hard m) :
    Retry op opt = .hardErr m (k + 1) := by
  have hmax : max opt.delay 1 = opt.delay := by omega
  have hfuel : k < opt.timeout / max opt.delay 1 + 2 := by
    cases k with
    | zero => exact Nat.add_pos_right _ (by norm_num)
    | succ j =>
      have hle := (hpre j (by omega)).2
      have hdiv : j + 1 ≤ opt.timeout / opt.delay :=
        (Nat.le_div_iff_mul_le hd).mpr hle
      rw [hmax]
      exact Nat.lt_of_le_of_lt hdiv (Nat.lt_add_of_pos_right (by norm_num))
  have := retryAux_hard op opt m k 0 _ hfuel
    (fun j _ hj2 => hpre j (by omega)) (by simpa using hk)
  simpa [Retry] using this

/-- C2 (amended): a transport error on any detection poll ends the retry
loop at that poll (no further poll happens; the outcome records exactly
`k + 1` attempts and is unchanged for any executor agreeing up to poll
`k`), and `Execute` then fails — but the error surfaced to the caller is
the formatted wait-failure message, not the raw transport error. -/
theorem transport_error_aborts_wait
    (c : WaitForConfig) (e : Executor) (k : Nat) (m : String)
    (hos : c.os = "linux")
    (hpre : ∀ j, j < k →
      linuxPollStep (NewWaitFor c).c.state (portPattern (NewWaitFor c).c.port)
          (e j) = .notYet ∧
        (j + 1) * (NewWaitFor c).c.sleep ≤ (NewWaitFor c).c.timeout)
    (hk : e k = .err m) :
    (NewWaitFor c).waitForLinux e
        ⟨(NewWaitFor c).c.sleep, (NewWaitFor c).c.timeout⟩ = .hardErr m (k + 1) ∧
    (NewWaitFor c).ExecuteT e =
      (Except.error (timedOutMsg (NewWaitFor c).c.port (NewWaitFor c).c.state
        (NewWaitFor c).c.timeout), k + 1) ∧
    (∀ e' : Executor, (∀ j, j ≤ k → e' j = e j) →
      (NewWaitFor c).ExecuteT e' = (NewWaitFor c).ExecuteT e) := by
  have hos' : (NewWaitFor c).c.os = "linux" := hos
  have hwait : ∀ f : Executor, (∀ j, j ≤ k → f j = e j) →
      (NewWaitFor c).waitForLinux f
        ⟨(NewWaitFor c).c.sleep, (NewWaitFor c).c.timeout⟩ = .hardErr m (k + 1) := by
    intro f hf
    unfold WaitFor.waitForLinux
    refine Retry_hard _ _ k m (newWaitFor_sleep_pos c) ?_ ?_
    · intro j hj
      rw [hf j (Nat.le_of_lt hj)]
      exact hpre j hj
    · show linuxPollStep _ _ (f k) = .hard m
      rw [hf k (le_refl k), hk]
      rfl
  have hexec : ∀ f : Executor, (∀ j, j ≤ k → f j = e j) →
      (NewWaitFor c).ExecuteT f =
        (Except.error (timedOutMsg (NewWaitFor c).c.port (NewWaitFor c).c.state
          (NewWaitFor c).c.timeout), k + 1) := by
    intro f hf
    unfold WaitFor.ExecuteT
    rw [if_neg (by rw [hos']; decide),
      if_pos (show (NewWaitFor c).c.os = Linux from hos')]
    rw [hwait f hf]
    rfl
  refine ⟨hwait e (fun _ _ => rfl), hexec e (fun _ _ => rfl), ?_⟩
  intro e' he'
  rw [hexec e' he', hexec e (fun _ _ => rfl)]

/-- Witness for `transport_error_aborts_wait`: one not-yet poll, then a
transport error on the second poll, which ends the wait with two
attempts. -/
theorem transport_error_aborts_wait_witness :
    (NewWaitFor ⟨4000, secondNs, "stopped", 60 * secondNs, "linux"⟩).ExecuteT
        (fun j => if j = 0 then .ok "LISTEN :4000 x" else .err "connection refused") =
      (Except.error (timedOutMsg 4000 "stopped" (60 * secondNs)), 2) := by
  have h := transport_error_aborts_wait
    ⟨4000, secondNs, "stopped", 60 * secondNs, "linux"⟩
    (fun j => if j = 0 then .ok "LISTEN :4000 x" else .err "connection refused")
    1 "connection refused" rfl
    (by
      intro j hj
      interval_cases j
      exact ⟨by decide, by decide⟩)
    (by decide)
  exact h.2.1

/-- C2 (counterexample to the literal claim): with a transport error on
the very first poll, the caller of `Execute` receives the formatted
timeout message — identical for two different transport errors and not
containing the transport error text — so the transport error itself is
not propagated to WaitFor's caller. -/
theorem transport_error_not_surfaced_counterexample :
    (NewWaitFor ⟨4000, 0, "stopped", 0, "linux"⟩).Execute
        (fun _ => .err "connection refused") =
      Except.error (timedOutMsg 4000 "stopped" (60 * secondNs)) ∧
    (NewWaitFor ⟨4000, 0, "stopped", 0, "linux"⟩).Execute
        (fun _ => .err "connection refused") =
      (NewWaitFor ⟨4000, 0, "stopped", 0, "linux"⟩).Execute
        (fun _ => .err "host unreachable") ∧
    strContains (timedOutMsg 4000 "stopped" (60 * secondNs))
      "connection refused" = false := by
  refine ⟨rfl, rfl, by decide⟩

/-! ## Set lemmas -/

theorem mem_SSinsert (l : List String) (x y : String) :
    x ∈ SSinsert l y ↔ x ∈ l ∨ x = y := by
  unfold SSinsert
  split
  · rename_i h
    constructor
    · exact Or.inl
    · rintro (hx | rfl)
      · exact hx
      · exact h
  · simp

theorem mem_SSinsert_self (l : List String) (x : String) : x ∈ SSinsert l x := by
  unfold SSinsert
  split
  · assumption
  · simp

theorem mem_SSjoin (l o : List String) (x : String) :
    x ∈ SSjoin l o ↔ x ∈ l ∨ x ∈ o := by
  induction o generalizing l with
  | nil => simp [SSjoin]
  | cons a o ih =>
    show x ∈ SSjoin (SSinsert l a) o ↔ _
    rw [ih, mem_SSinsert]
    simp [List.mem_cons]
    tauto

theorem nodup_SSinsert (l : List String) (x : String) (h : l.Nodup) :
    (SSinsert l x).Nodup := by
  unfold SSinsert
  split
  · exact h
  · rename_i hx
    refine List.Nodup.append h (List.nodup_singleton x) ?_
    intro a ha hax
    simp at hax
    subst hax
    exact hx ha

theorem nodup_SSjoin (l o : List String) (h : l.Nodup) : (SSjoin l o).Nodup := by
  induction o generalizing l with
  | nil => exact h
  | cons a o ih => exact ih (SSinsert l a) (nodup_SSinsert l a h)

/-! ## Claim theorems: cleanup path calculation -/

/-- C7: an instance retained by role, node id, or host contributes no
paths at all: its loop iteration leaves the file map untouched, and
removing it from any instance sequence does not change the accumulated
map. -/
theorem retained_instance_contributes_nothing
    (c : cleanUpFiles) (topo : Topology) (m : FileMap) (ins : Instance)
    (h : ins.componentName ∈ c.retainDataRoles ∨ ins.id ∈ c.retainDataNodes ∨
      ins.host ∈ c.retainDataNodes) :
    instStep c topo m ins = m ∧
    ∀ l1 l2 : List Instance,
      (l1 ++ ins :: l2).foldl (instStep c topo) m =
        (l1 ++ l2).foldl (instStep c topo) m := by
  have hstep : ∀ m' : FileMap, instStep c topo m' ins = m' := by
    intro m'
    funext h2
    unfold instStep
    split_ifs
    · rfl
    · rfl
  refine ⟨hstep m, ?_⟩
  intro l1 l2
  induction l1 generalizing m with
  | nil => simp only [List.nil_append, List.foldl_cons, hstep]
  | cons a l1 ih => simp only [List.cons_append, List.foldl_cons]; exact ih _

/-- Witness for `retained_instance_contributes_nothing`: a tikv instance
retained by role contributes nothing even with all cleanup flags set. -/
theorem retained_instance_contributes_nothing_witness :
    instStep
      { cleanupData := true, cleanupLog := true, cleanupTLS := true,
        retainDataRoles := ["tikv"], retainDataNodes := [],
        delFileMap := fun _ => [] }
      ⟨[], ⟨"tidb", false⟩, none⟩ (fun _ => [])
      ⟨"tikv", "h1:20160", "h1", "/data", "/log", "deploy", false, 22,
        "linux", "amd64"⟩ = (fun _ => []) :=
  (retained_instance_contributes_nothing _ _ _ _ (Or.inl (by decide))).1

/-- C8: for a non-skipped, non-retained instance, the `tls` directory
under its absolute deploy dir is added to its host entry when
cleanup-TLS is set and cluster-wide TLS is disabled; otherwise the host
entry receives exactly the log and data globs (no TLS contribution). -/
theorem tls_dir_added_iff_flag_and_tls_disabled
    (c : cleanUpFiles) (topo : Topology) (m : FileMap) (ins : Instance)
    (hskip : ¬ ((ins.componentName = ComponentNodeExporter ∨
        ins.componentName = ComponentBlackboxExporter) ∧ ins.ignoreMonitorAgent))
    (hret : ¬ (ins.componentName ∈ c.retainDataRoles ∨ ins.id ∈ c.retainDataNodes ∨
        ins.host ∈ c.retainDataNodes)) :
    (c.cleanupTLS ∧ ¬ topo.globalOptions.tlsEnabled →
      pathJoin (specAbs topo.globalOptions.user ins.deployDir) TLSCertKeyDir ∈
        instStep c topo m ins ins.host) ∧
    (¬ (c.cleanupTLS ∧ ¬ topo.globalOptions.tlsEnabled) →
      instStep c topo m ins ins.host =
        SSjoin (SSjoin (m ins.host) (logPathsOf c ins)) (dataPathsOf c ins)) := by
  have hstep : instStep c topo m ins ins.host =
      SSjoin (SSjoin (SSjoin (m ins.host) (logPathsOf c ins)) (dataPathsOf c ins))
        (tlsPathOf c topo.globalOptions ins) := by
    unfold instStep
    split_ifs with hh
    · rfl
    · exact absurd rfl hh
  constructor
  · intro hc
    rw [hstep]
    have htls : tlsPathOf c topo.globalOptions ins =
        [pathJoin (specAbs topo.globalOptions.user ins.deployDir) TLSCertKeyDir] := by
      unfold tlsPathOf
      rw [if_pos hc]
      rfl
    rw [htls]
    exact mem_SSinsert_self _ _
  · intro hc
    rw [hstep]
    have htls : tlsPathOf c topo.globalOptions ins = [] := by
      unfold tlsPathOf
      rw [if_neg hc]
    rw [htls]
    rfl

/-- Witness for `tls_dir_added_iff_flag_and_tls_disabled`: with
cleanup-TLS set and TLS disabled, the tls dir lands in the host entry. -/
theorem tls_dir_added_witness :
    pathJoin (specAbs "tidb" "deploy") TLSCertKeyDir ∈
      instStep
        { cleanupData := false, cleanupLog := false, cleanupTLS := true,
          retainDataRoles := [], retainDataNodes := [],
          delFileMap := fun _ => [] }
        ⟨[], ⟨"tidb", false⟩, none⟩ (fun _ => [])
        ⟨"tidb", "h1:4000", "h1", "", "/log", "deploy", false, 22,
          "linux", "amd64"⟩ "h1" :=
  (tls_dir_added_iff_flag_and_tls_disabled _ _ _ _ (by decide) (by decide)).1
    ⟨rfl, by decide⟩

theorem mem_instStep (c : cleanUpFiles) (topo : Topology) (m : FileMap)
    (ins : Instance) (h x : String) :
    x ∈ instStep c topo m ins h ↔ x ∈ m h ∨
      (¬ instSkipped c ins ∧ h = ins.host ∧
        x ∈ instPaths c topo.globalOptions ins) := by
  unfold instStep instSkipped instPaths
  split_ifs with h1 h2 h3
  · simp [h1]
  · simp [h2]
  · subst h3
    simp only [mem_SSjoin]
    simp [h1, h2]
    tauto
  · simp [h3]

theorem mem_foldl_inst (c : cleanUpFiles) (topo : Topology) (l : List Instance)
    (m : FileMap) (h x : String) :
    x ∈ (l.foldl (instStep c topo) m) h ↔ x ∈ m h ∨
      ∃ ins ∈ l, ¬ instSkipped c ins ∧ h = ins.host ∧
        x ∈ instPaths c topo.globalOptions ins := by
  induction l generalizing m with
  | nil => simp
  | cons a l ih =>
    rw [List.foldl_cons, ih, mem_instStep]
    simp only [List.mem_cons, exists_eq_or_imp]
    tauto

theorem foldl_components_eq (c : cleanUpFiles) (topo : Topology)
    (comps : List Component) (m : FileMap) :
    comps.foldl (fun m com => com.instances.foldl (instStep c topo) m) m =
      ((comps.map Component.instances).flatten).foldl (instStep c topo) m := by
  induction comps generalizing m with
  | nil => rfl
  | cons a comps ih =>
    rw [List.foldl_cons, List.map_cons, List.flatten_cons, List.foldl_append]
    exact ih _

theorem mem_instanceCleanup (c : cleanUpFiles) (topo : Topology) (h x : String) :
    x ∈ (c.instanceCleanupFiles topo).delFileMap h ↔ x ∈ c.delFileMap h ∨
      ∃ ins ∈ topo.allInstances, ¬ instSkipped c ins ∧ h = ins.host ∧
        x ∈ instPaths c topo.globalOptions ins := by
  show x ∈ (topo.componentsByStopOrder.foldl
      (fun m com => com.instances.foldl (instStep c topo) m) c.delFileMap) h ↔ _
  rw [foldl_components_eq, mem_foldl_inst]
  have hmem : ∀ ins : Instance,
      ins ∈ (topo.componentsByStopOrder.map Component.instances).flatten ↔
        ins ∈ topo.allInstances := by
    intro ins
    unfold Topology.componentsByStopOrder Topology.allInstances
    simp [List.mem_flatten]
  simp only [hmem]

theorem monHostStep_keys (acc : List (String × hostInfo) × List String)
    (ins : Instance) (h : String) :
    h ∈ (monHostStep acc ins).1.map Prod.fst ↔
      h ∈ acc.1.map Prod.fst ∨ ins.host = h := by
  simp only [monHostStep]
  by_cases hany : acc.1.any (fun p => p.1 == ins.host)
  · rw [if_pos hany]
    have hin : ins.host ∈ acc.1.map Prod.fst := by
      rcases List.any_eq_true.mp hany with ⟨p, hp, hbeq⟩
      have heq : p.1 = ins.host := by simpa using hbeq
      exact heq ▸ List.mem_map_of_mem Prod.fst hp
    constructor
    · exact Or.inl
    · rintro (hh | rfl)
      · exact hh
      · exact hin
  · rw [if_neg hany]
    simp [List.map_append, eq_comm]

theorem monHostStep_noAgent (acc : List (String × hostInfo) × List String)
    (ins : Instance) (h : String) :
    h ∈ (monHostStep acc ins).2 ↔
      h ∈ acc.2 ∨ (ins.host = h ∧ ins.ignoreMonitorAgent = true) := by
  simp only [monHostStep]
  by_cases hig : ins.ignoreMonitorAgent = true <;>
    simp [hig, mem_SSinsert, eq_comm]

theorem monHostStep_nodup (acc : List (String × hostInfo) × List String)
    (ins : Instance) (h : (acc.1.map Prod.fst).Nodup) :
    ((monHostStep acc ins).1.map Prod.fst).Nodup := by
  simp only [monHostStep]
  by_cases hany : acc.1.any (fun p => p.1 == ins.host)
  · rw [if_pos hany]
    exact h
  · rw [if_neg hany]
    rw [List.map_append]
    refine List.Nodup.append h (by simp) ?_
    intro a ha hax
    simp at hax
    subst hax
    rcases List.mem_map.mp ha with ⟨p, hp, hfst⟩
    exact absurd (List.any_eq_true.mpr ⟨p, hp, by simp [hfst]⟩) hany

theorem mem_foldl_monHost_keys (l : List Instance)
    (acc : List (String × hostInfo) × List String) (h : String) :
    h ∈ (l.foldl monHostStep acc).1.map Prod.fst ↔
      h ∈ acc.1.map Prod.fst ∨ ∃ ins ∈ l, ins.host = h := by
  induction l generalizing acc with
  | nil => simp
  | cons a l ih =>
    rw [List.foldl_cons, ih, monHostStep_keys]
    simp only [List.mem_cons, exists_eq_or_imp]
    tauto

theorem mem_foldl_monHost_noAgent (l : List Instance)
    (acc : List (String × hostInfo) × List String) (h : String) :
    h ∈ (l.foldl monHostStep acc).2 ↔
      h ∈ acc.2 ∨ ∃ ins ∈ l, ins.host = h ∧ ins.ignoreMonitorAgent = true := by
  induction l generalizing acc with
  | nil => simp
  | cons a l ih =>
    rw [List.foldl_cons, ih, monHostStep_noAgent]
    simp only [List.mem_cons, exists_eq_or_imp]
    tauto

theorem nodup_foldl_monHost (l : List Instance) :
    ∀ acc : List (String × hostInfo) × List String,
    (acc.1.map Prod.fst).Nodup → ((l.foldl monHostStep acc).1.map Prod.fst).Nodup := by
  induction l with
  | nil => intro acc h; exact h
  | cons a l ih =>
    intro acc h
    rw [List.foldl_cons]
    exact ih _ (monHostStep_nodup acc a h)

theorem mem_getMonitorHosts_keys (topo : Topology) (h : String) :
    h ∈ (getMonitorHosts topo).1.map Prod.fst ↔
      ∃ ins ∈ topo.allInstances, ins.host = h := by
  unfold getMonitorHosts
  rw [mem_foldl_monHost_keys]
  simp

theorem mem_getMonitorHosts_noAgent (topo : Topology) (h : String) :
    h ∈ (getMonitorHosts topo).2 ↔
      ∃ ins ∈ topo.allInstances, ins.host = h ∧ ins.ignoreMonitorAgent = true := by
  unfold getMonitorHosts
  rw [mem_foldl_monHost_noAgent]
  simp

theorem nodup_getMonitorHosts_keys (topo : Topology) :
    ((getMonitorHosts topo).1.map Prod.fst).Nodup := by
  unfold getMonitorHosts
  exact nodup_foldl_monHost _ _ (by simp)

theorem mem_monStep (c : cleanUpFiles) (g : GlobalOptions) (mo : MonitoredOptions)
    (na : List String) (m : FileMap) (host h x : String) :
    x ∈ monStep c g mo na m host h ↔ x ∈ m h ∨
      (¬ (host ∈ na ∨ host ∈ c.retainDataNodes) ∧ h = host ∧
        x ∈ monPaths c g mo) := by
  unfold monStep monPaths
  split_ifs with h1 h2
  · simp [h1]
  · subst h2
    simp only [mem_SSjoin]
    simp [h1]
    tauto
  · simp [h2]

theorem mem_foldl_mon (c : cleanUpFiles) (g : GlobalOptions) (mo : MonitoredOptions)
    (na : List String) (hosts : List String) (m : FileMap) (h x : String) :
    x ∈ (hosts.foldl (monStep c g mo na) m) h ↔ x ∈ m h ∨
      (h ∈ hosts ∧ ¬ (h ∈ na ∨ h ∈ c.retainDataNodes) ∧ x ∈ monPaths c g mo) := by
  induction hosts generalizing m with
  | nil => simp
  | cons a hosts ih =>
    rw [List.foldl_cons, ih, mem_monStep]
    constructor
    · rintro ((hx | ⟨hna, rfl, hp⟩) | ⟨hh, hna, hp⟩)
      · exact Or.inl hx
      · exact Or.inr ⟨List.mem_cons_self _ _, hna, hp⟩
      · exact Or.inr ⟨List.mem_cons_of_mem _ hh, hna, hp⟩
    · rintro (hx | ⟨hh, hna, hp⟩)
      · exact Or.inl (Or.inl hx)
      · rcases List.mem_cons.mp hh with rfl | hh2
        · exact Or.inl (Or.inr ⟨hna, rfl, hp⟩)
        · exact Or.inr ⟨hh2, hna, hp⟩

theorem monPaths_instanceCleanup (c : cleanUpFiles) (topo : Topology)
    (g : GlobalOptions) (mo : MonitoredOptions) :
    monPaths (c.instanceCleanupFiles topo) g mo = monPaths c g mo := rfl

theorem retainDataNodes_instanceCleanup (c : cleanUpFiles) (topo : Topology) :
    (c.instanceCleanupFiles topo).retainDataNodes = c.retainDataNodes := rfl

theorem mem_monitorCleanup (c : cleanUpFiles) (topo : Topology) (h x : String) :
    x ∈ (c.monitorCleanupFiles topo).delFileMap h ↔ x ∈ c.delFileMap h ∨
      ∃ mo, topo.monitoredOptions = some mo ∧
        (∃ ins ∈ topo.allInstances, ins.host = h) ∧
        ¬ ((∃ ins ∈ topo.allInstances, ins.host = h ∧ ins.ignoreMonitorAgent = true) ∨
          h ∈ c.retainDataNodes) ∧
        x ∈ monPaths c topo.globalOptions mo := by
  unfold cleanUpFiles.monitorCleanupFiles
  cases hmo : topo.monitoredOptions with
  | none => simp
  | some mo =>
    show x ∈ (((getMonitorHosts topo).1.map Prod.fst).foldl
        (monStep c topo.globalOptions mo (getMonitorHosts topo).2) c.delFileMap) h ↔ _
    rw [mem_foldl_mon, mem_getMonitorHosts_keys]
    constructor
    · rintro (hx | ⟨hkeys, hskip, hp⟩)
      · exact Or.inl hx
      · refine Or.inr ⟨mo, rfl, hkeys, ?_, hp⟩
        rw [← mem_getMonitorHosts_noAgent]
        exact hskip
    · rintro (hx | ⟨mo2, hmo2, hkeys, hskip, hp⟩)
      · exact Or.inl hx
      · have hmoeq : mo2 = mo := (Option.some.inj hmo2).symm
        subst hmoeq
        refine Or.inr ⟨hkeys, ?_, hp⟩
        rw [mem_getMonitorHosts_noAgent]
        exact hskip

theorem mem_getCleanupFiles (topo : Topology) (cd cl ct : Bool)
    (roles nodes : List String) (h x : String) :
    x ∈ getCleanupFiles topo cd cl ct roles nodes h ↔
      (∃ ins ∈ topo.allInstances,
        ¬ instSkipped (mkCleanCfg cd cl ct roles nodes) ins ∧ h = ins.host ∧
          x ∈ instPaths (mkCleanCfg cd cl ct roles nodes) topo.globalOptions ins) ∨
      (∃ mo, topo.monitoredOptions = some mo ∧
        (∃ ins ∈ topo.allInstances, ins.host = h) ∧
        ¬ ((∃ ins ∈ topo.allInstances, ins.host = h ∧ ins.ignoreMonitorAgent = true) ∨
          h ∈ nodes) ∧
        x ∈ monPaths (mkCleanCfg cd cl ct roles nodes) topo.globalOptions mo) := by
  unfold getCleanupFiles
  rw [mem_monitorCleanup, mem_instanceCleanup]
  have hempty : (mkCleanCfg cd cl ct roles nodes).delFileMap h = ([] : List String) := rfl
  have hnodes : (mkCleanCfg cd cl ct roles nodes).retainDataNodes = nodes := rfl
  simp only [monPaths_instanceCleanup, retainDataNodes_instanceCleanup, hempty,
    hnodes, List.not_mem_nil, false_or]

/-! ## No-duplicate invariant of the cleanup map -/

theorem nodup_instStep (c : cleanUpFiles) (topo : Topology) (m : FileMap)
    (ins : Instance) (hm : ∀ h, (m h).Nodup) :
    ∀ h, (instStep c topo m ins h).Nodup := by
  intro h
  unfold instStep
  split_ifs
  · exact hm h
  · exact hm h
  · exact nodup_SSjoin _ _ (nodup_SSjoin _ _ (nodup_SSjoin _ _ (hm ins.host)))
  · exact hm h

theorem nodup_foldl_inst (c : cleanUpFiles) (topo : Topology) (l : List Instance) :
    ∀ m : FileMap, (∀ h, (m h).Nodup) →
      ∀ h, ((l.foldl (instStep c topo) m) h).Nodup := by
  induction l with
  | nil => intro m hm; exact hm
  | cons a l ih =>
    intro m hm
    rw [List.foldl_cons]
    exact ih _ (nodup_instStep c topo m a hm)

theorem nodup_monStep (c : cleanUpFiles) (g : GlobalOptions) (mo : MonitoredOptions)
    (na : List String) (m : FileMap) (host : String) (hm : ∀ h, (m h).Nodup) :
    ∀ h, (monStep c g mo na m host h).Nodup := by
  intro h
  unfold monStep
  split_ifs
  · exact hm h
  · exact nodup_SSjoin _ _ (nodup_SSjoin _ _ (nodup_SSjoin _ _ (hm host)))
  · exact hm h

theorem nodup_foldl_mon (c : cleanUpFiles) (g : GlobalOptions) (mo : MonitoredOptions)
    (na : List String) (hosts : List String) :
    ∀ m : FileMap, (∀ h, (m h).Nodup) →
      ∀ h, ((hosts.foldl (monStep c g mo na) m) h).Nodup := by
  induction hosts with
  | nil => intro m hm; exact hm
  | cons a hosts ih =>
    intro m hm
    rw [List.foldl_cons]
    exact ih _ (nodup_monStep c g mo na m a hm)

theorem nodup_getCleanupFiles (topo : Topology) (cd cl ct : Bool)
    (roles nodes : List String) :
    ∀ h, (getCleanupFiles topo cd cl ct roles nodes h).Nodup := by
  intro h
  have hinst : ∀ h2,
      (((mkCleanCfg cd cl ct roles nodes).instanceCleanupFiles topo).delFileMap h2).Nodup := by
    intro h2
    show ((topo.componentsByStopOrder.foldl
        (fun m com => com.instances.foldl
          (instStep (mkCleanCfg cd cl ct roles nodes) topo) m)
        (mkCleanCfg cd cl ct roles nodes).delFileMap) h2).Nodup
    rw [foldl_components_eq]
    exact nodup_foldl_inst _ topo _ _ (fun _ => List.nodup_nil) h2
  unfold getCleanupFiles cleanUpFiles.monitorCleanupFiles
  cases hmo : topo.monitoredOptions with
  | none => exact hinst h
  | some mo => exact nodup_foldl_mon _ _ _ _ _ _ hinst h

/-- C3: the cleanup path calculation (a) never records a glob twice for a
host, and (b) is order-invariant: two topologies with the same options
and the same instances in any iteration order (any permutation of the
flattened instance list, covering reordering of components and of
instances within components) yield identical per-host path sets. -/
theorem cleanup_files_nodup_and_order_invariant
    (cd cl ct : Bool) (roles nodes : List String) (t1 t2 : Topology)
    (hg : t1.globalOptions = t2.globalOptions)
    (hmo : t1.monitoredOptions = t2.monitoredOptions)
    (hp : t1.allInstances.Perm t2.allInstances) (h : String) :
    (getCleanupFiles t1 cd cl ct roles nodes h).Nodup ∧
    (getCleanupFiles t1 cd cl ct roles nodes h).toFinset =
      (getCleanupFiles t2 cd cl ct roles nodes h).toFinset := by
  refine ⟨nodup_getCleanupFiles t1 cd cl ct roles nodes h, ?_⟩
  ext x
  simp only [List.mem_toFinset]
  rw [mem_getCleanupFiles, mem_getCleanupFiles, hg, hmo]
  simp only [hp.mem_iff]

/-- Witness for `cleanup_files_nodup_and_order_invariant`: two instances
colocated on one host with the same log directory, iterated in either
order. -/
theorem cleanup_files_nodup_and_order_invariant_witness :
    (getCleanupFiles ⟨[⟨[insA, insB]⟩], ⟨"tidb", false⟩, none⟩
        true true false [] [] "h1").Nodup ∧
    (getCleanupFiles ⟨[⟨[insA, insB]⟩], ⟨"tidb", false⟩, none⟩
        true true false [] [] "h1").toFinset =
      (getCleanupFiles ⟨[⟨[insB, insA]⟩], ⟨"tidb", false⟩, none⟩
        true true false [] [] "h1").toFinset :=
  cleanup_files_nodup_and_order_invariant true true false [] []
    ⟨[⟨[insA, insB]⟩], ⟨"tidb", false⟩, none⟩
    ⟨[⟨[insB, insA]⟩], ⟨"tidb", false⟩, none⟩
    rfl rfl (List.Perm.swap insB insA []) "h1"

/-- C4 (amended): `StartCluster`, `StopCluster` and `RestartCluster`
check the scale-out/scale-in lock before building or executing any
pipeline: with the lock held each returns the lock-contention error and
its trace holds only the lock check — no pipeline is built or executed. -/
theorem lock_checked_before_pipeline_start_stop_restart
    (env : MgrEnv) (skipConfirm : Bool) (hl : env.locked = true) :
    startCluster env = (.error .lockErr, [.checkedLock]) ∧
    stopCluster env skipConfirm = (.error .lockErr, [.checkedLock]) ∧
    restartCluster env skipConfirm = (.error .lockErr, [.checkedLock]) := by
  unfold startCluster stopCluster restartCluster
  simp [hl]

/-- Witness for `lock_checked_before_pipeline_start_stop_restart`. -/
theorem lock_checked_before_pipeline_witness :
    startCluster ⟨true, false, false, false, false, false⟩ =
      (.error .lockErr, [.checkedLock]) :=
  (lock_checked_before_pipeline_start_stop_restart
    ⟨true, false, false, false, false, false⟩ false rfl).1

/-- C4 (counterexample to the literal claim): `EnableCluster` — the
Manager operation invoking the Enable/Disable primitive — performs no
lock check: with the lock held and all collaborators healthy it builds
and executes its pipeline and returns success, not a lock-contention
error, and its trace never records a lock check. -/
theorem enable_cluster_ignores_lock_counterexample :
    enableCluster ⟨true, false, false, false, false, false⟩ true =
      (.ok (), [.builtPipeline, .executedPipeline]) ∧
    (enableCluster ⟨true, false, false, false, false, false⟩ true).1 ≠
      Except.error MgrErr.lockErr ∧
    MgrEvent.checkedLock ∉
      (enableCluster ⟨true, false, false, false, false, false⟩ true).2 :=
  ⟨rfl, fun hcontra => Except.noConfusion hcontra, by decide⟩

